import Mathlib

/-!
Verification of the logng logging library (goinsane/logng).

The definitions below are a shallow embedding of the Go source:
`severity.go`, `logger.go`, `log.go`, `output.go` and the fields/stack
helpers.  Go machine integers (`type Severity int`, `type Verbose`) are
modelled as `Int`/`Nat`; Go `nil` pointers and `nil` errors as `Option`;
Go byte slices holding message text as `String` (the only byte the code
inspects is a trailing `'\n'`, whose UTF-8 byte occurs exactly at a
trailing `'\n'` character); Go panics as `Option`/`Except` failure.
The runtime stack-walking facility (`runtime.Callers` /
`runtime.CallersFrames`) is an external capability and is passed in as
an explicit environment.
-/

namespace Logng

/-- Verbosity level. Modelled from the spec: the `Verbose` type's own
declaration is not among the repository files here; the spec describes it
as "a non-negative integer ordering", so it is embedded as `Nat`. -/
abbrev Verbose := Nat

/-- Go `type Severity int` (severity.go): an integer-valued enum. -/
abbrev Severity := Int

/-- severity.go: `SeverityNone Severity = iota` -/
def SeverityNone : Severity := 0

/-- severity.go: `SeverityFatal` -/
def SeverityFatal : Severity := 1

/-- severity.go: `SeverityError` -/
def SeverityError : Severity := 2

/-- severity.go: `SeverityWarning` -/
def SeverityWarning : Severity := 3

/-- severity.go: `SeverityInfo` -/
def SeverityInfo : Severity := 4

/-- severity.go: `SeverityDebug` -/
def SeverityDebug : Severity := 5

/-- The two sentinel errors of errors.go, plus the case-analysis panic in
`Severity.MarshalText` (unreachable after the validity check). -/
inductive GoErr
  | invalidSeverity
  | unknownSeverity
  deriving DecidableEq, Repr

deriving instance DecidableEq for Except

/-- The ASCII fragment of Unicode uppercasing, one character.  This is NOT
the whole of Go's `unicode.ToUpper` (which also maps non-ASCII letters,
some into ASCII, e.g. dotless i U+0131 to `I`); it is used only to
instantiate the uppercasing capability at concrete ASCII inputs in
witnesses, where the two agree. -/
def asciiUpperChar (c : Char) : Char :=
  if 'a' ≤ c ∧ c ≤ 'z' then Char.ofNat (c.toNat - 32) else c

/-- The ASCII fragment of `strings.ToUpper`, applied character by
character; a concrete instance of the uppercasing capability for
witnesses (it agrees with Go's function on ASCII strings). -/
def asciiUpper (s : String) : String := ⟨s.data.map asciiUpperChar⟩

/-- severity.go `Severity.CheckValid`: valid iff `SeverityNone <= s && s <= SeverityDebug`.
`IsValid` is `CheckValid() == nil`. -/
def Severity.IsValid (s : Severity) : Bool :=
  decide (SeverityNone ≤ s ∧ s ≤ SeverityDebug)

/-- severity.go `Severity.MarshalText`: the error of `CheckValid` for an
invalid severity, otherwise the uppercase name.  The `default: panic`
branch of the Go switch is unreachable after the validity check; it is
mapped to the same error value. -/
def Severity.MarshalText (s : Severity) : Except GoErr String :=
  if Severity.IsValid s then
    if s = SeverityNone then .ok "NONE"
    else if s = SeverityFatal then .ok "FATAL"
    else if s = SeverityError then .ok "ERROR"
    else if s = SeverityWarning then .ok "WARNING"
    else if s = SeverityInfo then .ok "INFO"
    else if s = SeverityDebug then .ok "DEBUG"
    else .error .invalidSeverity
  else .error .invalidSeverity

/-- severity.go `Severity.UnmarshalText`: switch on `strings.ToUpper(text)`,
`ErrUnknownSeverity` on anything else.  Go's `strings.ToUpper` applies the
full Unicode simple upper-case mapping (also non-ASCII letters, some into
ASCII); that table lives in the Go standard library, not in this
repository, so the uppercasing is consumed here as an external capability
`toUpper`, exactly as the stack walker is. -/
def Severity.UnmarshalText (toUpper : String → String) (text : String) :
    Except GoErr Severity :=
  let str := toUpper text
  if str = "NONE" then .ok SeverityNone
  else if str = "FATAL" then .ok SeverityFatal
  else if str = "ERROR" then .ok SeverityError
  else if str = "WARNING" then .ok SeverityWarning
  else if str = "INFO" then .ok SeverityInfo
  else if str = "DEBUG" then .ok SeverityDebug
  else .error .unknownSeverity

/-- The six recognized severity names (uppercase). -/
def severityNames : List String := ["NONE", "FATAL", "ERROR", "WARNING", "INFO", "DEBUG"]

/-- C4, relative to the uppercasing capability `toUpper`
(`strings.ToUpper`), constrained only by the one fact severity.go relies
on — Unicode uppercasing fixes the six already-uppercase names: for each of
the six valid severities, unmarshalling the marshalled text yields the
severity again; parsing depends only on the uppercased input (so it is
case-insensitive, over the full Unicode case mapping); parsing succeeds
exactly on the strings whose uppercasing is one of the six names, and
unmarshalling any other string fails with `ErrUnknownSeverity`. -/
theorem severity_text_roundtrip (toUpper : String → String)
    (hfix : ∀ name, name ∈ severityNames → toUpper name = name) :
    (∀ s : Severity, Severity.IsValid s = true →
      ∃ txt, Severity.MarshalText s = .ok txt ∧
        Severity.UnmarshalText toUpper txt = .ok s) ∧
    (∀ t u : String, toUpper t = toUpper u →
      Severity.UnmarshalText toUpper t = Severity.UnmarshalText toUpper u) ∧
    (∀ t : String, toUpper t ∈ severityNames →
      ∃ s, Severity.IsValid s = true ∧ Severity.UnmarshalText toUpper t = .ok s ∧
        Severity.MarshalText s = .ok (toUpper t)) ∧
    (∀ t : String, toUpper t ∉ severityNames →
      Severity.UnmarshalText toUpper t = .error .unknownSeverity) := by
  refine ⟨?_, ?_, ?_, ?_⟩
  · intro s hs
    have hb : SeverityNone ≤ s ∧ s ≤ SeverityDebug := by
      simpa [Severity.IsValid] using hs
    have h0 : (0 : Int) ≤ s := hb.1
    have h5 : s ≤ (5 : Int) := hb.2
    interval_cases s
    · exact ⟨"NONE", by decide, by simp [Severity.UnmarshalText, hfix "NONE" (by decide), SeverityNone]⟩
    · exact ⟨"FATAL", by decide, by simp [Severity.UnmarshalText, hfix "FATAL" (by decide), SeverityFatal]⟩
    · exact ⟨"ERROR", by decide, by simp [Severity.UnmarshalText, hfix "ERROR" (by decide), SeverityError]⟩
    · exact ⟨"WARNING", by decide,
        by simp [Severity.UnmarshalText, hfix "WARNING" (by decide), SeverityWarning]⟩
    · exact ⟨"INFO", by decide, by simp [Severity.UnmarshalText, hfix "INFO" (by decide), SeverityInfo]⟩
    · exact ⟨"DEBUG", by decide, by simp [Severity.UnmarshalText, hfix "DEBUG" (by decide), SeverityDebug]⟩
  · intro t u h
    simp only [Severity.UnmarshalText, h]
  · intro t hmem
    simp only [severityNames, List.mem_cons, List.not_mem_nil, or_false] at hmem
    rcases hmem with h | h | h | h | h | h
    · exact ⟨SeverityNone, by decide, by simp [Severity.UnmarshalText, h],
        by rw [h]; decide⟩
    · exact ⟨SeverityFatal, by decide, by simp [Severity.UnmarshalText, h],
        by rw [h]; decide⟩
    · exact ⟨SeverityError, by decide, by simp [Severity.UnmarshalText, h],
        by rw [h]; decide⟩
    · exact ⟨SeverityWarning, by decide, by simp [Severity.UnmarshalText, h],
        by rw [h]; decide⟩
    · exact ⟨SeverityInfo, by decide, by simp [Severity.UnmarshalText, h],
        by rw [h]; decide⟩
    · exact ⟨SeverityDebug, by decide, by simp [Severity.UnmarshalText, h],
        by rw [h]; decide⟩
  · intro t h
    simp only [severityNames, List.mem_cons, List.not_mem_nil, or_false, not_or] at h
    obtain ⟨h1, h2, h3, h4, h5, h6⟩ := h
    simp only [Severity.UnmarshalText, h1, h2, h3, h4, h5, h6, if_false]

/-- Witness for C4 with the capability instantiated at the ASCII
uppercasing (which agrees with Go's on these ASCII inputs): severity
`SeverityNone` round-trips, "debug" parses like "DEBUG", "info" parses
successfully, and "TRACE" fails with `ErrUnknownSeverity`. -/
theorem severity_text_roundtrip_witness :
    (∃ txt, Severity.MarshalText SeverityNone = .ok txt ∧
      Severity.UnmarshalText asciiUpper txt = .ok SeverityNone) ∧
    Severity.UnmarshalText asciiUpper "debug"
      = Severity.UnmarshalText asciiUpper "DEBUG" ∧
    (∃ s, Severity.IsValid s = true ∧
      Severity.UnmarshalText asciiUpper "info" = .ok s ∧
      Severity.MarshalText s = .ok (asciiUpper "info")) ∧
    Severity.UnmarshalText asciiUpper "TRACE" = .error .unknownSeverity :=
  ⟨(severity_text_roundtrip asciiUpper (by decide)).1 SeverityNone (by decide),
   (severity_text_roundtrip asciiUpper (by decide)).2.1 "debug" "DEBUG" (by decide),
   (severity_text_roundtrip asciiUpper (by decide)).2.2.1 "info" (by decide),
   (severity_text_roundtrip asciiUpper (by decide)).2.2.2 "TRACE" (by decide)⟩

/-- Go `error` values as the Logger observes them: the two context sentinel
errors (`context.Canceled`, `context.DeadlineExceeded`), any other leaf
error, and a wrapping error (`fmt.Errorf` with `%w`). -/
inductive GoError
  | ctxCanceled
  | ctxDeadlineExceeded
  | other (msg : String)
  | wrap (msg : String) (cause : GoError)
  deriving DecidableEq, Repr

/-- Go `errors.Is(e, target)` for sentinel targets: `e == target`, or a match
somewhere down the `Unwrap` chain. -/
def GoError.is (e target : GoError) : Bool :=
  match e with
  | .wrap m c => decide (GoError.wrap m c = target) || GoError.is c target
  | e => decide (e = target)

/-- The context-error test of `Logger.out`:
`errors.Is(err, context.Canceled) || errors.Is(err, context.DeadlineExceeded)`
(false for a nil error). -/
def isContextError (err : Option GoError) : Bool :=
  match err with
  | none => false
  | some e => e.is .ctxCanceled || e.is .ctxDeadlineExceeded

/-- fields.go `Field`: a key with an opaque printable value (embedded as
`String`; the Logger never inspects it). -/
structure Field where
  key : String
  value : String
  deriving DecidableEq, Repr

/-- fields.go `type Fields []Field`. -/
abbrev Fields := List Field

/-- fields.go `Fields.Clone`: a fresh slice holding the same elements in
order (nil and non-nil alike come out element-for-element equal; Lean lists
are values, so the copy is rebuilt element by element as the Go loop does). -/
def Fields.Clone : Fields → Fields
  | [] => []
  | f :: fs => f :: Fields.Clone fs

theorem Fields.Clone_eq (f : Fields) : Fields.Clone f = f := by
  induction f with
  | nil => rfl
  | cons x xs ih => simp [Fields.Clone, ih]

/-- A program counter (`uintptr`), opaque to this package. -/
abbrev PC := Nat

/-- stack.go `StackCaller`: the parts of `runtime.Frame` the outputs read. -/
structure StackCaller where
  function : String := ""
  file : String := ""
  line : Int := 0
  deriving DecidableEq, Repr, Inhabited

/-- The timestamp type (`time.Time`), opaque to the Logger except for
copying and comparison. -/
abbrev GoTime := Int

/-- stack.go `StackTrace`: the captured program counters and their resolved
callers. -/
structure StackTrace where
  programCounters : List PC
  callers : List StackCaller
  deriving DecidableEq, Repr

/-- The runtime capability the Logger consumes (spec §4.4): `runtime.Callers`
behind `ProgramCounters(size, skip)`, frame resolution behind
`runtime.CallersFrames`, and the wall clock behind `time.Now`. -/
structure RuntimeEnv where
  programCounters : Nat → Nat → List PC
  frameOf : PC → StackCaller
  now : GoTime

/-- stack.go `NewStackTrace`: copy the program counters and resolve each to
a caller (the `CallersFrames` loop; an empty slice yields no callers). -/
def NewStackTrace (env : RuntimeEnv) (programCounters : List PC) : StackTrace :=
  { programCounters := programCounters
    callers := programCounters.map env.frameOf }

/-- stack.go `StackTrace.SizeOfCallers`. -/
def StackTrace.SizeOfCallers (t : StackTrace) : Nat := t.callers.length

/-- stack.go `StackTrace.Caller`: the caller at `index`; Go panics out of
range, embedded as `none`. -/
def StackTrace.Caller (t : StackTrace) (index : Nat) : Option StackCaller :=
  t.callers.get? index

/-- stack.go `StackTrace.Clone` (nil-safe at the call sites through
`Option.map`): fresh slices with the same program counters and callers. -/
def StackTrace.CloneSt (t : StackTrace) : StackTrace :=
  { programCounters := t.programCounters, callers := t.callers }

/-- log.go `Log`: one emission record.  `StackCaller` is `none` for the Go
zero value (never filled in), `some` once the capture guard fills it. -/
structure Log where
  Message : String
  Error : Option GoError
  Severity : Severity
  Verbosity : Verbose
  Time : GoTime
  Fields : Fields
  StackCaller : Option StackCaller
  StackTrace : Option StackTrace
  deriving DecidableEq, Repr

/-- logger.go `Logger` (the revision carrying `ctxErrVerbosity`): the
configuration bundle.  `output` is `none` for a nil output; the RWMutex
serializes access only and has no pure content.  The Go field `prefix` is
spelled `prefix_` (its Go name is reserved here). -/
structure Logger where
  output : Option Unit
  severity : Severity
  verbose : Verbose
  printSeverity : Severity
  stackTraceSeverity : Severity
  verbosity : Verbose
  time : Option GoTime
  prefix_ : String
  suffix : String
  fields : Fields
  ctxErrVerbosity : Verbose
  deriving DecidableEq, Repr

/-- logger.go `NewLogger`: invalid severity is replaced by `SeverityInfo`;
print severity starts at `SeverityInfo`, stack-trace severity at
`SeverityNone`, everything else at the zero value. -/
def NewLogger (output : Option Unit) (severity : Severity) (verbose : Verbose) : Logger :=
  { output := output
    severity := if Severity.IsValid severity then severity else SeverityInfo
    verbose := verbose
    printSeverity := SeverityInfo
    stackTraceSeverity := SeverityNone
    verbosity := 0
    time := none
    prefix_ := ""
    suffix := ""
    fields := []
    ctxErrVerbosity := 0 }

/-- logger.go `Logger.Clone` on a non-nil receiver: copy every field, clone
the fields list, and copy the pinned time by value (`nil` stays `nil`). -/
def Logger.cloneCore (l : Logger) : Logger :=
  { output := l.output
    severity := l.severity
    verbose := l.verbose
    printSeverity := l.printSeverity
    stackTraceSeverity := l.stackTraceSeverity
    verbosity := l.verbosity
    time := match l.time with
      | none => none
      | some tm => some tm
    prefix_ := l.prefix_
    suffix := l.suffix
    fields := Fields.Clone l.fields
    ctxErrVerbosity := l.ctxErrVerbosity }

/-- logger.go `Logger.Clone`: nil in, nil out. -/
def Logger.CloneL : Option Logger → Option Logger
  | none => none
  | some l => some l.cloneCore

/-- logger.go `Logger.SetSeverity`: invalid severities become `SeverityInfo`. -/
def Logger.SetSeverity : Option Logger → Severity → Option Logger
  | none, _ => none
  | some l, severity =>
      some { l with severity := if Severity.IsValid severity then severity else SeverityInfo }

/-- logger.go `Logger.SetVerbose`. -/
def Logger.SetVerbose : Option Logger → Verbose → Option Logger
  | none, _ => none
  | some l, verbose => some { l with verbose := verbose }

/-- logger.go `Logger.SetOutput`. -/
def Logger.SetOutput : Option Logger → Option Unit → Option Logger
  | none, _ => none
  | some l, output => some { l with output := output }

/-- logger.go `Logger.SetPrintSeverity`: invalid severities become
`SeverityInfo`. -/
def Logger.SetPrintSeverity : Option Logger → Severity → Option Logger
  | none, _ => none
  | some l, printSeverity =>
      some { l with printSeverity :=
        if Severity.IsValid printSeverity then printSeverity else SeverityInfo }

/-- logger.go `Logger.SetStackTraceSeverity`: invalid severities become
`SeverityNone`. -/
def Logger.SetStackTraceSeverity : Option Logger → Severity → Option Logger
  | none, _ => none
  | some l, stackTraceSeverity =>
      some { l with stackTraceSeverity :=
        if Severity.IsValid stackTraceSeverity then stackTraceSeverity else SeverityNone }

/-- logger.go `Logger.WithVerbosity`: clone, then set the view's verbosity. -/
def Logger.WithVerbosity : Option Logger → Verbose → Option Logger
  | none, _ => none
  | some l, verbosity => some { l.cloneCore with verbosity := verbosity }

/-- logger.go `Logger.V`: a derived view at `verbosity` when the verbose
threshold allows it, nil otherwise. -/
def Logger.V : Option Logger → Verbose → Option Logger
  | none, _ => none
  | some l, verbosity =>
      if l.verbose < verbosity then none
      else Logger.WithVerbosity (some l) verbosity

/-- logger.go `Logger.WithTime`: clone with the pinned time. -/
def Logger.WithTime : Option Logger → GoTime → Option Logger
  | none, _ => none
  | some l, tm => some { l.cloneCore with time := some tm }

/-- logger.go `Logger.WithoutTime`: clone with the pinned time cleared. -/
def Logger.WithoutTime : Option Logger → Option Logger
  | none => none
  | some l => some { l.cloneCore with time := none }

/-- logger.go `Logger.WithPrefix`: clone; the new text goes to the END of
the stored prefix (`l2.prefix += fmt.Sprint(args...)`). -/
def Logger.WithPrefix : Option Logger → String → Option Logger
  | none, _ => none
  | some l, p =>
      let l2 := l.cloneCore
      some { l2 with prefix_ := l2.prefix_ ++ p }

/-- logger.go `Logger.WithSuffix`: clone; the new text goes to the START of
the stored suffix (`l2.suffix = fmt.Sprint(args...) + l2.suffix`). -/
def Logger.WithSuffix : Option Logger → String → Option Logger
  | none, _ => none
  | some l, s =>
      let l2 := l.cloneCore
      some { l2 with suffix := s ++ l2.suffix }

/-- logger.go `Logger.WithFields`: clone and append the given fields. -/
def Logger.WithFields : Option Logger → Fields → Option Logger
  | none, _ => none
  | some l, fs =>
      let l2 := l.cloneCore
      some { l2 with fields := l2.fields ++ fs }

/-- logger.go `Logger.WithCtxErrVerbosity`: clone with the context-error
verbosity override. -/
def Logger.WithCtxErrVerbosity : Option Logger → Verbose → Option Logger
  | none, _ => none
  | some l, v => some { l.cloneCore with ctxErrVerbosity := v }

/-- The message composition of `Logger.out`: `prefix + message + suffix`
with exactly one trailing newline stripped when the concatenation is
non-empty and its last byte is `'\n'`. -/
def composeMessage (pfx msg sfx : String) : String :=
  let m := pfx ++ msg ++ sfx
  if 0 < m.length ∧ m.back = '\n' then m.dropRight 1 else m

/-- logger.go `Logger.out` (the revision carrying `ctxErrVerbosity`): the
emission hot path.  Early rejection when the output is unset, the severity
threshold is below the message severity, the verbose threshold is below the
view's verbosity, or a context error is gated by `ctxErrVerbosity`;
otherwise the Log record handed to the output, `none` when no record is
passed. -/
def Logger.out (env : RuntimeEnv) (l : Option Logger) (severity : Severity)
    (message : String) (err : Option GoError) : Option Log :=
  match l with
  | none => none
  | some l =>
    if l.output.isNone then none
    else if l.severity < severity then none
    else if l.verbose < l.verbosity then none
    else if isContextError err ∧ l.verbose < l.ctxErrVerbosity then none
    else
      let msg := composeMessage l.prefix_ message l.suffix
      let tm := match l.time with
        | some t => t
        | none => env.now
      let includeStackTrace : Bool := decide (l.stackTraceSeverity ≥ severity)
      let pcSize := if includeStackTrace then 64 else 1
      let st := NewStackTrace env (env.programCounters pcSize 5)
      some
        { Message := msg
          Error := err
          Severity := severity
          Verbosity := l.verbosity
          Time := tm
          Fields := Fields.Clone l.fields
          StackCaller := if 0 < st.SizeOfCallers then st.Caller 0 else none
          StackTrace := if includeStackTrace then some st else none }

/-- logger.go `Logger.Print` (message already formatted): emits at the
logger's configured print severity; a nil receiver returns at once. -/
def Logger.Print (env : RuntimeEnv) (l : Option Logger) (message : String)
    (err : Option GoError) : Option Log :=
  match l with
  | none => none
  | some l => Logger.out env (some l) l.printSeverity message err

/-- A concrete runtime environment for concrete evaluations: `runtime.Callers`
returns `size` distinct program counters, every program counter resolves to
the zero frame, and the clock reads a fixed instant. -/
def envA : RuntimeEnv :=
  { programCounters := fun size _ => List.range size
    frameOf := fun _ => {}
    now := 1700000000 }

/-- A concrete root Logger: non-nil output, severity `INFO`, verbose 0. -/
def loggerA : Logger := NewLogger (some ()) SeverityInfo 0

/-- C1: for a Logger with a non-nil output, verbose threshold at least the
view's verbosity, and an error that is not a context cancellation/deadline
error, an emit at severity `S` passes exactly one Log to the output when the
severity threshold is `≥ S`, and passes none when the threshold is `< S`. -/
theorem logger_severity_gate (env : RuntimeEnv) (l : Logger) (S : Severity)
    (msg : String) (err : Option GoError)
    (hout : l.output.isSome = true)
    (hverb : l.verbosity ≤ l.verbose)
    (hctx : isContextError err = false) :
    (S ≤ l.severity → (Logger.out env (some l) S msg err).isSome = true) ∧
    (l.severity < S → Logger.out env (some l) S msg err = none) := by
  constructor
  · intro hS
    have h1 : l.output.isNone = false := by
      cases ho : l.output <;> simp [ho] at hout ⊢
    simp [Logger.out, h1, not_lt.mpr hS, not_lt.mpr hverb, hctx]
  · intro hS
    simp [Logger.out, hS]

/-- Witness for C1: `loggerA` (threshold `INFO`) emits at `INFO` and
suppresses at `DEBUG`. -/
theorem logger_severity_gate_witness :
    (Logger.out envA (some loggerA) SeverityInfo "message" none).isSome = true ∧
    Logger.out envA (some loggerA) SeverityDebug "message" none = none :=
  ⟨(logger_severity_gate envA loggerA SeverityInfo "message" none (by decide)
      (by decide) (by decide)).1 (by decide),
   (logger_severity_gate envA loggerA SeverityDebug "message" none (by decide)
      (by decide) (by decide)).2 (by decide)⟩

/-- C2: `V(v)` yields a derived view carrying verbosity `v` exactly when the
verbose threshold is `≥ v` and nil otherwise, and the emit entry points are
safe no-ops on a nil Logger. -/
theorem v_derivation_gate (l : Logger) (v : Verbose) :
    (v ≤ l.verbose → (Logger.V (some l) v).map Logger.verbosity = some v) ∧
    (l.verbose < v → Logger.V (some l) v = none) ∧
    (∀ env S msg err, Logger.out env none S msg err = none) ∧
    (∀ env msg err, Logger.Print env none msg err = none) ∧
    (∀ w, Logger.V none w = none) := by
  refine ⟨?_, ?_, ?_, ?_, ?_⟩
  · intro h
    simp [Logger.V, Logger.WithVerbosity, not_lt.mpr h]
  · intro h
    simp [Logger.V, h]
  · intro env S msg err; rfl
  · intro env msg err; rfl
  · intro w; rfl

/-- C3: an emitted Log's message is the prefix/message/suffix concatenation
with one trailing newline stripped; `WithPrefix` appends at the end of the
prefix and `WithSuffix` prepends at the start of the suffix; and the two
documented renderings come out exactly as stated, as does single-newline
stripping. -/
theorem message_prefix_suffix_composition (env : RuntimeEnv) (l : Logger)
    (S : Severity) (M : String) (err : Option GoError) (rec : Log)
    (p s : String)
    (h : Logger.out env (some l) S M err = some rec) :
    rec.Message = composeMessage l.prefix_ M l.suffix ∧
    (Logger.WithPrefix (some l) p).map Logger.prefix_ = some (l.prefix_ ++ p) ∧
    (Logger.WithSuffix (some l) s).map Logger.suffix = some (s ++ l.suffix) ∧
    (Logger.out envA
        (Logger.WithSuffix (Logger.WithSuffix (some loggerA) " :suffix1") " :suffix2")
        SeverityInfo "this is info log." none).map Log.Message
      = some "this is info log. :suffix2 :suffix1" ∧
    (Logger.out envA
        (Logger.WithPrefix (Logger.WithPrefix (some loggerA) "prefix1: ") "prefix2: ")
        SeverityInfo "this is info log." none).map Log.Message
      = some "prefix1: prefix2: this is info log." ∧
    (Logger.out envA (some loggerA) SeverityInfo "ends in newline\n" none).map Log.Message
      = some "ends in newline" ∧
    (Logger.out envA (some loggerA) SeverityInfo "two newlines\n\n" none).map Log.Message
      = some "two newlines\n" := by
  refine ⟨?_, ?_, ?_, by decide, by decide, by decide, by decide⟩
  · by_cases h1 : l.output.isNone
    · simp [Logger.out, h1] at h
    · by_cases h2 : l.severity < S
      · simp [Logger.out, h1, h2] at h
      · by_cases h3 : l.verbose < l.verbosity
        · simp [Logger.out, h1, h2, h3] at h
        · by_cases h4 : isContextError err ∧ l.verbose < l.ctxErrVerbosity
          · simp [Logger.out, h1, h2, h3, h4] at h
          · simp [Logger.out, h1, h2, h3, h4] at h
            cases h
            rfl
  · simp [Logger.WithPrefix, Logger.cloneCore]
  · simp [Logger.WithSuffix, Logger.cloneCore]

/-- Witness for C3 at a concrete emission: `loggerA` emitting "hello". -/
def recA : Log :=
  { Message := "hello"
    Error := none
    Severity := SeverityInfo
    Verbosity := 0
    Time := 1700000000
    Fields := []
    StackCaller := some {}
    StackTrace := none }

/-- Witness for C3: the general composition facts applied at `loggerA`,
message "hello", prefix text "P: " and suffix text " :S". -/
theorem message_prefix_suffix_composition_witness :
    recA.Message = composeMessage loggerA.prefix_ "hello" loggerA.suffix ∧
    (Logger.WithPrefix (some loggerA) "P: ").map Logger.prefix_
      = some (loggerA.prefix_ ++ "P: ") ∧
    (Logger.WithSuffix (some loggerA) " :S").map Logger.suffix
      = some (" :S" ++ loggerA.suffix) ∧
    (Logger.out envA
        (Logger.WithSuffix (Logger.WithSuffix (some loggerA) " :suffix1") " :suffix2")
        SeverityInfo "this is info log." none).map Log.Message
      = some "this is info log. :suffix2 :suffix1" ∧
    (Logger.out envA
        (Logger.WithPrefix (Logger.WithPrefix (some loggerA) "prefix1: ") "prefix2: ")
        SeverityInfo "this is info log." none).map Log.Message
      = some "prefix1: prefix2: this is info log." ∧
    (Logger.out envA (some loggerA) SeverityInfo "ends in newline\n" none).map Log.Message
      = some "ends in newline" ∧
    (Logger.out envA (some loggerA) SeverityInfo "two newlines\n\n" none).map Log.Message
      = some "two newlines\n" :=
  message_prefix_suffix_composition envA loggerA SeverityInfo "hello" none recA
    "P: " " :S" (by decide)

/-- The three severity-storing setters of logger.go, as data for reasoning
about arbitrary call sequences. -/
inductive SetterOp
  | setSeverity (s : Severity)
  | setPrintSeverity (s : Severity)
  | setStackTraceSeverity (s : Severity)

/-- Dispatch one setter call. -/
def applySetter (l : Option Logger) : SetterOp → Option Logger
  | .setSeverity s => Logger.SetSeverity l s
  | .setPrintSeverity s => Logger.SetPrintSeverity l s
  | .setStackTraceSeverity s => Logger.SetStackTraceSeverity l s

/-- The invariant of C5: the three stored severities are valid. -/
def ValidSeverities (l : Logger) : Prop :=
  Severity.IsValid l.severity = true ∧
    Severity.IsValid l.printSeverity = true ∧
    Severity.IsValid l.stackTraceSeverity = true

theorem validSeverities_newLogger (o : Option Unit) (s : Severity) (v : Verbose) :
    ValidSeverities (NewLogger o s v) := by
  refine ⟨?_, rfl, rfl⟩
  simp only [NewLogger]
  split
  · assumption
  · decide

theorem validSeverities_applySetter {l : Logger} (h : ValidSeverities l) (op : SetterOp) :
    ∃ l2, applySetter (some l) op = some l2 ∧ ValidSeverities l2 := by
  obtain ⟨h1, h2, h3⟩ := h
  cases op with
  | setSeverity s =>
      refine ⟨_, rfl, ?_, h2, h3⟩
      by_cases hv : Severity.IsValid s = true
      · simpa [Logger.SetSeverity, hv] using hv
      · simp [Logger.SetSeverity, hv]
        decide
  | setPrintSeverity s =>
      refine ⟨_, rfl, h1, ?_, h3⟩
      by_cases hv : Severity.IsValid s = true
      · simpa [Logger.SetPrintSeverity, hv] using hv
      · simp [Logger.SetPrintSeverity, hv]
        decide
  | setStackTraceSeverity s =>
      refine ⟨_, rfl, h1, h2, ?_⟩
      by_cases hv : Severity.IsValid s = true
      · simpa [Logger.SetStackTraceSeverity, hv] using hv
      · simp [Logger.SetStackTraceSeverity, hv]
        decide

theorem validSeverities_foldSetters (ops : List SetterOp) :
    ∀ l : Logger, ValidSeverities l →
      ∃ l2, List.foldl applySetter (some l) ops = some l2 ∧ ValidSeverities l2 := by
  induction ops with
  | nil => exact fun l h => ⟨l, rfl, h⟩
  | cons op rest ih =>
      intro l h
      obtain ⟨l1, hstep, hvalid⟩ := validSeverities_applySetter h op
      obtain ⟨l2, hrest, hvalid2⟩ := ih l1 hvalid
      exact ⟨l2, by simpa [List.foldl, hstep] using hrest, hvalid2⟩

/-- C5: invalid severity assignment never fails and is normalized — to
`SeverityInfo` by `NewLogger`/`SetSeverity`/`SetPrintSeverity`, to
`SeverityNone` by `SetStackTraceSeverity`; and after any sequence of these
setter calls with arbitrary arguments, starting from any `NewLogger`, the
three stored severities are always valid. -/
theorem severity_normalization (output : Option Unit) (s : Severity) (v : Verbose)
    (ops : List SetterOp) :
    (Severity.IsValid s = false → (NewLogger output s v).severity = SeverityInfo) ∧
    (Severity.IsValid s = true → (NewLogger output s v).severity = s) ∧
    (∀ (l : Logger) (s2 : Severity), Severity.IsValid s2 = false →
      Logger.SetSeverity (some l) s2 = some { l with severity := SeverityInfo }) ∧
    (∀ (l : Logger) (s2 : Severity), Severity.IsValid s2 = false →
      Logger.SetPrintSeverity (some l) s2 = some { l with printSeverity := SeverityInfo }) ∧
    (∀ (l : Logger) (s2 : Severity), Severity.IsValid s2 = false →
      Logger.SetStackTraceSeverity (some l) s2
        = some { l with stackTraceSeverity := SeverityNone }) ∧
    (∃ l2, List.foldl applySetter (some (NewLogger output s v)) ops = some l2 ∧
      ValidSeverities l2) := by
  refine ⟨?_, ?_, ?_, ?_, ?_, ?_⟩
  · intro h; simp [NewLogger, h]
  · intro h; simp [NewLogger, h]
  · intro l s2 h; simp [Logger.SetSeverity, h]
  · intro l s2 h; simp [Logger.SetPrintSeverity, h]
  · intro l s2 h; simp [Logger.SetStackTraceSeverity, h]
  · exact validSeverities_foldSetters ops _ (validSeverities_newLogger output s v)

/-- C8 counterexample: with the DEFAULT stack-trace threshold
`SeverityNone` (never changed from `NewLogger`), setting the print severity
to `SeverityNone` (a valid severity, stored as given) and calling `Print`
emits a Log that DOES carry a full StackTrace, because
`stackTraceSeverity >= severity` holds at `None >= None`.  This refutes
"with the default threshold of SeverityNone, no emitted Log carries a full
StackTrace". -/
theorem stacktrace_default_counterexample :
    (Logger.SetPrintSeverity (some loggerA) SeverityNone).map Logger.stackTraceSeverity
      = some SeverityNone ∧
    (Logger.Print envA (Logger.SetPrintSeverity (some loggerA) SeverityNone)
        "message" none).map (fun rec => rec.StackTrace.isSome)
      = some true := by decide

/-- C8 as amended: every emitted Log carries a caller frame (whenever the
runtime yields at least one frame); it carries a full StackTrace of at most
64 frames exactly when the stack-trace threshold is `≥` the message
severity; and with the default threshold `SeverityNone`, no Log emitted at
a severity strictly above `SeverityNone` (all of Fatal..Debug) carries a
full StackTrace. -/
theorem Caller_zero_isSome (t : StackTrace) (h : 0 < t.SizeOfCallers) :
    (t.Caller 0).isSome = true := by
  rcases t with ⟨pcs, callers⟩
  cases callers with
  | nil => simp [StackTrace.SizeOfCallers] at h
  | cons c cs => rfl

theorem stacktrace_capture_gate (env : RuntimeEnv) (l : Logger) (S : Severity)
    (msg : String) (err : Option GoError) (rec : Log)
    (hlen : ∀ n k, (env.programCounters n k).length ≤ n)
    (hne : ∀ n k, 0 < n → 0 < (env.programCounters n k).length)
    (h : Logger.out env (some l) S msg err = some rec) :
    rec.StackCaller.isSome = true ∧
    (rec.StackTrace.isSome = true ↔ S ≤ l.stackTraceSeverity) ∧
    (∀ st, rec.StackTrace = some st → st.callers.length ≤ 64) ∧
    (l.stackTraceSeverity = SeverityNone → SeverityNone < S → rec.StackTrace = none) := by
  by_cases h1 : l.output.isNone
  · simp [Logger.out, h1] at h
  by_cases h2 : l.severity < S
  · simp [Logger.out, h1, h2] at h
  by_cases h3 : l.verbose < l.verbosity
  · simp [Logger.out, h1, h2, h3] at h
  by_cases h4 : isContextError err ∧ l.verbose < l.ctxErrVerbosity
  · simp [Logger.out, h1, h2, h3, h4] at h
  simp [Logger.out, h1, h2, h3, h4] at h
  cases h
  dsimp only
  by_cases hst : S ≤ l.stackTraceSeverity
  · simp only [ge_iff_le, hst, if_true, ite_true]
    have hpos : 0 < (NewStackTrace env (env.programCounters 64 5)).SizeOfCallers := by
      simp only [NewStackTrace, StackTrace.SizeOfCallers, List.length_map]
      exact hne 64 5 (by decide)
    refine ⟨?_, by simp [hst], ?_, ?_⟩
    · rw [if_pos hpos]
      exact Caller_zero_isSome _ hpos
    · intro st hstEq
      cases hstEq
      simp only [NewStackTrace, List.length_map]
      exact hlen 64 5
    · intro hnone hS
      exact absurd (lt_of_lt_of_le hS (hnone ▸ hst)) (lt_irrefl _)
  · simp only [ge_iff_le, hst, if_false, ite_false]
    have hpos : 0 < (NewStackTrace env (env.programCounters 1 5)).SizeOfCallers := by
      simp only [NewStackTrace, StackTrace.SizeOfCallers, List.length_map]
      exact hne 1 5 (by decide)
    refine ⟨?_, by simp [hst], ?_, ?_⟩
    · rw [if_pos hpos]
      exact Caller_zero_isSome _ hpos
    · intro st hstEq
      cases hstEq
    · intro _ _
      trivial

/-- Fixture for the C8 witness: `loggerA` with the stack-trace threshold
raised to `DEBUG`. -/
def loggerB : Logger := { loggerA with stackTraceSeverity := SeverityDebug }

/-- The record `loggerB` emits at `INFO` under `envA`: caller frame filled
in, full 64-frame stack trace attached. -/
def recB : Log :=
  { Message := "m"
    Error := none
    Severity := SeverityInfo
    Verbosity := 0
    Time := 1700000000
    Fields := []
    StackCaller := some {}
    StackTrace := some (NewStackTrace envA (List.range 64)) }

/-- Witness for C8's amended theorem at `envA`, `loggerB`, severity `INFO`. -/
theorem stacktrace_capture_gate_witness :
    recB.StackCaller.isSome = true ∧
    (recB.StackTrace.isSome = true ↔ SeverityInfo ≤ loggerB.stackTraceSeverity) ∧
    (∀ st, recB.StackTrace = some st → st.callers.length ≤ 64) ∧
    (loggerB.stackTraceSeverity = SeverityNone → SeverityNone < SeverityInfo →
      recB.StackTrace = none) :=
  stacktrace_capture_gate envA loggerB SeverityInfo "m" none recB
    (fun n k => by simp [envA])
    (fun n k hn => by simpa [envA] using hn)
    (by decide)

/-- output.go `QueuedOutput`, one instance together with the observable
history of its worker: `cap`/`queue` embed the bounded channel, `closed` the
cancellation of its context, `blocking` and `hasOnQueueFull` the two
atomically-set knobs, `fullCalls` how often the `onQueueFull` hook has run,
and `delivered` what the worker has forwarded to the wrapped output. -/
structure QueuedOutput where
  cap : Nat
  queue : List Log
  closed : Bool
  blocking : Bool
  hasOnQueueFull : Bool
  fullCalls : Nat
  delivered : List Log
  deriving DecidableEq, Repr

/-- Go `make(chan *Log, n)`: panics (here `none`) on a negative capacity,
otherwise an empty queue of that capacity. -/
def makeChan (n : Int) : Option (List Log × Nat) :=
  if n < 0 then none else some ([], n.toNat)

/-- output.go `NewQueuedOutput`: a negative `queueLen` is normalized to 0
before the channel is made, so construction never panics. -/
def NewQueuedOutput (queueLen : Int) : Option QueuedOutput :=
  let queueLen := if queueLen < 0 then 0 else queueLen
  (makeChan queueLen).map fun qc =>
    { cap := qc.2
      queue := qc.1
      closed := false
      blocking := false
      hasOnQueueFull := false
      fullCalls := 0
      delivered := [] }

/-- What one `QueuedOutput.Log` call does to its caller. -/
inductive QOLogResult
  | droppedClosed
  | enqueued
  | wouldBlock
  | droppedFull
  deriving DecidableEq, Repr

/-- output.go `QueuedOutput.Log`: return at once when the context is done;
in blocking mode suspend on a full queue (`wouldBlock`) and enqueue when a
slot is free; in non-blocking mode enqueue if a slot is free and otherwise
drop the entry, running the `onQueueFull` hook once when one is set. -/
def QueuedOutput.LogQ (q : QueuedOutput) (log : Log) : QueuedOutput × QOLogResult :=
  if q.closed then (q, .droppedClosed)
  else if q.blocking then
    if q.queue.length < q.cap then ({ q with queue := q.queue ++ [log] }, .enqueued)
    else (q, .wouldBlock)
  else if q.queue.length < q.cap then ({ q with queue := q.queue ++ [log] }, .enqueued)
  else ({ q with fullCalls := q.fullCalls + if q.hasOnQueueFull then 1 else 0 },
        .droppedFull)

/-- output.go `QueuedOutput.Close`: cancel the context (`q.ctxCancel()`);
cancelling an already-cancelled context changes nothing. -/
def QueuedOutput.Close (q : QueuedOutput) : QueuedOutput :=
  { q with closed := true }

/-- output.go `QueuedOutput.worker`, one loop iteration on a non-empty
queue: dequeue and forward to the wrapped output. -/
def QueuedOutput.workerStep (q : QueuedOutput) : QueuedOutput :=
  match q.queue with
  | [] => q
  | log :: rest => { q with queue := rest, delivered := q.delivered ++ [log] }

/-- C6: on an open, non-blocking QueuedOutput whose queue is full, a `Log`
call does not block (its outcome is a drop, never `wouldBlock`), leaves the
queue and the delivered history unchanged, and runs the `onQueueFull` hook
exactly once when one is set and not at all otherwise. -/
theorem queuedOutput_nonblocking_full (q : QueuedOutput) (log : Log)
    (hopen : q.closed = false) (hnb : q.blocking = false)
    (hfull : q.cap ≤ q.queue.length) :
    (q.LogQ log).2 = .droppedFull ∧
    (q.LogQ log).2 ≠ .wouldBlock ∧
    (q.LogQ log).1.queue = q.queue ∧
    (q.LogQ log).1.delivered = q.delivered ∧
    (q.hasOnQueueFull = true → (q.LogQ log).1.fullCalls = q.fullCalls + 1) ∧
    (q.hasOnQueueFull = false → (q.LogQ log).1.fullCalls = q.fullCalls) := by
  have hlt : ¬ q.queue.length < q.cap := not_lt.mpr hfull
  refine ⟨?_, ?_, ?_, ?_, ?_, ?_⟩
  · simp [QueuedOutput.LogQ, hopen, hnb, hlt]
  · simp [QueuedOutput.LogQ, hopen, hnb, hlt]
  · simp [QueuedOutput.LogQ, hopen, hnb, hlt]
  · simp [QueuedOutput.LogQ, hopen, hnb, hlt]
  · intro hh; simp [QueuedOutput.LogQ, hopen, hnb, hlt, hh]
  · intro hh; simp [QueuedOutput.LogQ, hopen, hnb, hlt, hh]

/-- Fixture for the C6 witness: an open, non-blocking QueuedOutput with
capacity 1 whose single slot is taken and whose hook is set. -/
def qFullA : QueuedOutput :=
  { cap := 1
    queue := [recA]
    closed := false
    blocking := false
    hasOnQueueFull := true
    fullCalls := 0
    delivered := [] }

/-- Witness for C6 at `qFullA` receiving `recA`. -/
theorem queuedOutput_nonblocking_full_witness :
    (qFullA.LogQ recA).2 = .droppedFull ∧
    (qFullA.LogQ recA).2 ≠ .wouldBlock ∧
    (qFullA.LogQ recA).1.queue = qFullA.queue ∧
    (qFullA.LogQ recA).1.delivered = qFullA.delivered ∧
    (qFullA.hasOnQueueFull = true → (qFullA.LogQ recA).1.fullCalls = qFullA.fullCalls + 1) ∧
    (qFullA.hasOnQueueFull = false → (qFullA.LogQ recA).1.fullCalls = qFullA.fullCalls) :=
  queuedOutput_nonblocking_full qFullA recA rfl rfl (by decide)

/-- C7: `Close` is idempotent (the worker-stopping transition happens once;
a second `Close` changes nothing), and a `Log` call that starts after
`Close` has completed returns `droppedClosed` without changing the queue or
forwarding anything to the wrapped output. -/
theorem queuedOutput_close_idempotent (q : QueuedOutput) (log : Log) :
    QueuedOutput.Close (QueuedOutput.Close q) = QueuedOutput.Close q ∧
    (QueuedOutput.Close q).LogQ log = (QueuedOutput.Close q, .droppedClosed) ∧
    ((QueuedOutput.Close q).LogQ log).1.queue = q.queue ∧
    ((QueuedOutput.Close q).LogQ log).1.delivered = q.delivered := by
  refine ⟨rfl, ?_, ?_, ?_⟩ <;> simp [QueuedOutput.Close, QueuedOutput.LogQ]

/-- C10: `NewQueuedOutput` is total: every `queueLen`, negative included,
yields a QueuedOutput (no panic) whose capacity is `queueLen` clamped at 0;
a negative `queueLen` yields capacity 0, an always-full queue on which a
non-blocking `Log` drops every entry. -/
theorem newQueuedOutput_total (queueLen : Int) :
    NewQueuedOutput queueLen = some
      { cap := queueLen.toNat
        queue := []
        closed := false
        blocking := false
        hasOnQueueFull := false
        fullCalls := 0
        delivered := [] } ∧
    (queueLen < 0 → queueLen.toNat = 0) ∧
    (∀ q log, NewQueuedOutput queueLen = some q → queueLen < 0 →
      (q.LogQ log).1.queue = [] ∧ (q.LogQ log).2 = .droppedFull) := by
  have hchan : ∀ m : Int, 0 ≤ m → makeChan m = some ([], m.toNat) := by
    intro m hm
    simp [makeChan, not_lt.mpr hm]
  have hmain : NewQueuedOutput queueLen = some
      { cap := queueLen.toNat, queue := [], closed := false, blocking := false,
        hasOnQueueFull := false, fullCalls := 0, delivered := [] } := by
    by_cases hneg : queueLen < 0
    · have h0 : queueLen.toNat = 0 := by omega
      simp [NewQueuedOutput, hneg, hchan 0 le_rfl, h0]
    · simp [NewQueuedOutput, hneg, hchan queueLen (not_lt.mp hneg)]
  refine ⟨hmain, fun _ => by omega, ?_⟩
  intro q log hq hneg
  rw [hmain] at hq
  have hq2 : q =
      { cap := queueLen.toNat, queue := [], closed := false, blocking := false,
        hasOnQueueFull := false, fullCalls := 0, delivered := [] } :=
    (Option.some.inj hq).symm
  subst hq2
  have h0 : queueLen.toNat = 0 := by omega
  constructor
  · simp [QueuedOutput.LogQ, h0]
  · simp [QueuedOutput.LogQ, h0]

/-- Addressable heap backing the aliasing claims: the separately allocated
message buffers, fields slices and stack traces of Log records, addressed
by allocation index.  Allocation appends, so a fresh reference equals the
list's current length. -/
structure Heap where
  msgs : List String
  flds : List Fields
  trcs : List (Option StackTrace)
  deriving Repr

/-- Read the message bytes behind a reference. -/
def Heap.getMsg (h : Heap) (r : Nat) : String := h.msgs.getD r ""

/-- Read the fields slice behind a reference. -/
def Heap.getFld (h : Heap) (r : Nat) : Fields := h.flds.getD r []

/-- Read the stack trace behind a reference. -/
def Heap.getTrc (h : Heap) (r : Nat) : Option StackTrace := h.trcs.getD r none

/-- A sub-output mutating the message bytes it was handed. -/
def Heap.setMsg (h : Heap) (r : Nat) (s : String) : Heap :=
  { h with msgs := h.msgs.set r s }

/-- A sub-output mutating the fields slice it was handed. -/
def Heap.setFld (h : Heap) (r : Nat) (fs : Fields) : Heap :=
  { h with flds := h.flds.set r fs }

/-- A sub-output mutating the stack trace it was handed. -/
def Heap.setTrc (h : Heap) (r : Nat) (t : Option StackTrace) : Heap :=
  { h with trcs := h.trcs.set r t }

/-- log.go `Log` as the heap object outputs share or clone: references to
the three mutable buffers, the scalar fields inline (`StackCaller` is a
struct copied by value, like `Error`, `Severity`, `Verbosity`, `Time`). -/
structure LogRef where
  msgRef : Nat
  fldRef : Nat
  trcRef : Nat
  err : Option GoError
  sev : Severity
  verb : Verbose
  time : GoTime
  caller : Option StackCaller
  deriving DecidableEq, Repr

/-- log.go `Log.Clone`: deep-copy the message bytes (`make` + `copy`), the
fields (`Fields.Clone`) and the stack trace (`StackTrace.Clone`, nil-safe)
into three fresh allocations (appended to the heap, so each reference is
fresh); the scalar fields are copied inline. -/
def LogRef.CloneR (h : Heap) (l : LogRef) : Heap × LogRef :=
  ({ msgs := h.msgs ++ [h.getMsg l.msgRef]
     flds := h.flds ++ [Fields.Clone (h.getFld l.fldRef)]
     trcs := h.trcs ++ [(h.getTrc l.trcRef).map StackTrace.CloneSt] },
   { l with msgRef := h.msgs.length, fldRef := h.flds.length, trcRef := h.trcs.length })

/-- output.go `multiOutput.Log` over `n` sub-outputs: each sub-output, in
order, receives `log.Clone()`; position `i` of the returned list is the
record handed to sub-output `i`. -/
def multiOutputLog : Nat → Heap → LogRef → Heap × List LogRef
  | 0, h, _ => (h, [])
  | Nat.succ k, h, l =>
      let hc := LogRef.CloneR h l
      let rest := multiOutputLog k hc.1 l
      (rest.1, hc.2 :: rest.2)

theorem cloneSt_map_id (o : Option StackTrace) : o.map StackTrace.CloneSt = o := by
  cases o <;> rfl

theorem getD_append_lt {α : Type} (xs ys : List α) (n : Nat) (d : α)
    (h : n < xs.length) : (xs ++ ys).getD n d = xs.getD n d := by
  simp [List.getD_eq_getElem?_getD, List.getElem?_append, h]

theorem getD_append_replicate {α : Type} (xs : List α) (n i : Nat) (v d : α)
    (h : i < n) : (xs ++ List.replicate n v).getD (xs.length + i) d = v := by
  rw [List.getD_eq_getElem?_getD, List.getElem?_append_right (by omega)]
  simp [List.getElem?_replicate, h]

theorem getD_set_ne {α : Type} (xs : List α) (r r' : Nat) (a d : α)
    (h : r ≠ r') : (xs.set r a).getD r' d = xs.getD r' d := by
  simp [List.getD_eq_getElem?_getD, List.getElem?_set_ne h]

/-- Closed form of `multiOutputLog`: the heap grows by `n` copies of each of
the original record's three buffers, and sub-output `i` receives the record
whose references point at the `i`-th fresh copies, scalars unchanged. -/
theorem multiOutputLog_eq (n : Nat) : ∀ (h : Heap) (l : LogRef),
    l.msgRef < h.msgs.length → l.fldRef < h.flds.length → l.trcRef < h.trcs.length →
    multiOutputLog n h l =
      ({ msgs := h.msgs ++ List.replicate n (h.getMsg l.msgRef)
         flds := h.flds ++ List.replicate n (h.getFld l.fldRef)
         trcs := h.trcs ++ List.replicate n (h.getTrc l.trcRef) },
       (List.range n).map fun i =>
         { l with msgRef := h.msgs.length + i, fldRef := h.flds.length + i,
                  trcRef := h.trcs.length + i }) := by
  induction n with
  | zero => intro h l hm hf ht; simp [multiOutputLog]
  | succ k ih =>
      intro h l hm hf ht
      have hone : multiOutputLog (k + 1) h l =
          ((multiOutputLog k
              { msgs := h.msgs ++ [h.getMsg l.msgRef]
                flds := h.flds ++ [h.getFld l.fldRef]
                trcs := h.trcs ++ [h.getTrc l.trcRef] } l).1,
            { l with msgRef := h.msgs.length, fldRef := h.flds.length,
                     trcRef := h.trcs.length } ::
              (multiOutputLog k
                { msgs := h.msgs ++ [h.getMsg l.msgRef]
                  flds := h.flds ++ [h.getFld l.fldRef]
                  trcs := h.trcs ++ [h.getTrc l.trcRef] } l).2) := by
        simp only [multiOutputLog, LogRef.CloneR, Fields.Clone_eq, cloneSt_map_id]
      rw [hone]
      rw [ih _ l (by simp; omega) (by simp; omega) (by simp; omega)]
      have hgm : Heap.getMsg
          { msgs := h.msgs ++ [h.getMsg l.msgRef]
            flds := h.flds ++ [h.getFld l.fldRef]
            trcs := h.trcs ++ [h.getTrc l.trcRef] } l.msgRef = h.getMsg l.msgRef := by
        simp only [Heap.getMsg]
        exact getD_append_lt _ _ _ _ hm
      have hgf : Heap.getFld
          { msgs := h.msgs ++ [h.getMsg l.msgRef]
            flds := h.flds ++ [h.getFld l.fldRef]
            trcs := h.trcs ++ [h.getTrc l.trcRef] } l.fldRef = h.getFld l.fldRef := by
        simp only [Heap.getFld]
        exact getD_append_lt _ _ _ _ hf
      have hgt : Heap.getTrc
          { msgs := h.msgs ++ [h.getMsg l.msgRef]
            flds := h.flds ++ [h.getFld l.fldRef]
            trcs := h.trcs ++ [h.getTrc l.trcRef] } l.trcRef = h.getTrc l.trcRef := by
        simp only [Heap.getTrc]
        exact getD_append_lt _ _ _ _ ht
      rw [hgm, hgf, hgt]
      refine Prod.ext ?_ ?_
      · simp [List.append_assoc, List.replicate_succ]
      · simp only
        rw [List.range_succ_eq_map, List.map_cons, List.map_map]
        refine congrArg₂ List.cons ?_ ?_
        · simp
        · refine List.map_congr_left ?_
          intro i _
          simp only [Function.comp_apply, List.length_append, List.length_singleton,
            LogRef.mk.injEq, Nat.succ_eq_add_one, and_true, true_and, eq_self_iff_true]
          omega

/-- C9: fanning a record out over `n` sub-outputs hands sub-output `i` (in
invocation order) the `i`-th clone: same scalar fields, references to fresh
buffers whose contents equal the original record's, all references pairwise
distinct, so a mutation through sub-output `i`'s references is invisible
through sub-output `j`'s and through the original record's. -/
theorem multiOutput_clones_independent (h : Heap) (l : LogRef) (n i j : Nat)
    (s : String) (fs : Fields) (ot : Option StackTrace)
    (hm : l.msgRef < h.msgs.length) (hf : l.fldRef < h.flds.length)
    (ht : l.trcRef < h.trcs.length)
    (hi : i < n) (hj : j < n) (hij : i ≠ j) :
    (multiOutputLog n h l).2.length = n ∧
    (multiOutputLog n h l).2.get? i
      = some { l with msgRef := h.msgs.length + i, fldRef := h.flds.length + i,
                      trcRef := h.trcs.length + i } ∧
    (multiOutputLog n h l).1.getMsg (h.msgs.length + i) = h.getMsg l.msgRef ∧
    (multiOutputLog n h l).1.getFld (h.flds.length + i) = h.getFld l.fldRef ∧
    (multiOutputLog n h l).1.getTrc (h.trcs.length + i) = h.getTrc l.trcRef ∧
    ((multiOutputLog n h l).1.setMsg (h.msgs.length + i) s).getMsg (h.msgs.length + j)
      = (multiOutputLog n h l).1.getMsg (h.msgs.length + j) ∧
    ((multiOutputLog n h l).1.setFld (h.flds.length + i) fs).getFld (h.flds.length + j)
      = (multiOutputLog n h l).1.getFld (h.flds.length + j) ∧
    ((multiOutputLog n h l).1.setTrc (h.trcs.length + i) ot).getTrc (h.trcs.length + j)
      = (multiOutputLog n h l).1.getTrc (h.trcs.length + j) ∧
    ((multiOutputLog n h l).1.setMsg (h.msgs.length + i) s).getMsg l.msgRef
      = (multiOutputLog n h l).1.getMsg l.msgRef := by
  rw [multiOutputLog_eq n h l hm hf ht]
  refine ⟨by simp, ?_, ?_, ?_, ?_, ?_, ?_, ?_, ?_⟩
  · simp [List.get?_eq_getElem?, List.getElem?_map, List.getElem?_range hi]
  · exact getD_append_replicate _ _ _ _ _ hi
  · exact getD_append_replicate _ _ _ _ _ hi
  · exact getD_append_replicate _ _ _ _ _ hi
  · exact getD_set_ne _ _ _ _ _ (by omega)
  · exact getD_set_ne _ _ _ _ _ (by omega)
  · exact getD_set_ne _ _ _ _ _ (by omega)
  · exact getD_set_ne _ _ _ _ _ (by omega)

/-- Fixture for the C9 witness: a heap holding one Log record. -/
def heapA : Heap := { msgs := ["hello"], flds := [[]], trcs := [none] }

/-- Fixture for the C9 witness: the record at the heap's slot 0. -/
def logRefA : LogRef :=
  { msgRef := 0, fldRef := 0, trcRef := 0, err := none, sev := SeverityInfo,
    verb := 0, time := 0, caller := none }

/-- Witness for C9: three sub-outputs, mutation through clone 0 checked
against clone 1 and against the original record. -/
theorem multiOutput_clones_independent_witness :
    (multiOutputLog 3 heapA logRefA).2.length = 3 ∧
    (multiOutputLog 3 heapA logRefA).2.get? 0
      = some { logRefA with msgRef := heapA.msgs.length + 0,
                            fldRef := heapA.flds.length + 0,
                            trcRef := heapA.trcs.length + 0 } ∧
    (multiOutputLog 3 heapA logRefA).1.getMsg (heapA.msgs.length + 0)
      = heapA.getMsg logRefA.msgRef ∧
    (multiOutputLog 3 heapA logRefA).1.getFld (heapA.flds.length + 0)
      = heapA.getFld logRefA.fldRef ∧
    (multiOutputLog 3 heapA logRefA).1.getTrc (heapA.trcs.length + 0)
      = heapA.getTrc logRefA.trcRef ∧
    ((multiOutputLog 3 heapA logRefA).1.setMsg (heapA.msgs.length + 0) "mutated").getMsg
        (heapA.msgs.length + 1)
      = (multiOutputLog 3 heapA logRefA).1.getMsg (heapA.msgs.length + 1) ∧
    ((multiOutputLog 3 heapA logRefA).1.setFld (heapA.flds.length + 0) []).getFld
        (heapA.flds.length + 1)
      = (multiOutputLog 3 heapA logRefA).1.getFld (heapA.flds.length + 1) ∧
    ((multiOutputLog 3 heapA logRefA).1.setTrc (heapA.trcs.length + 0) none).getTrc
        (heapA.trcs.length + 1)
      = (multiOutputLog 3 heapA logRefA).1.getTrc (heapA.trcs.length + 1) ∧
    ((multiOutputLog 3 heapA logRefA).1.setMsg (heapA.msgs.length + 0) "mutated").getMsg
        logRefA.msgRef
      = (multiOutputLog 3 heapA logRefA).1.getMsg logRefA.msgRef :=
  multiOutput_clones_independent heapA logRefA 3 0 1 "mutated" [] none
    (by decide) (by decide) (by decide) (by decide) (by decide) (by decide)

end Logng
